import Mathlib

/-!
Shallow embedding of the server-monitoring program (src/server_monitor.py)
and proofs about its parsing, discovery and orchestration behaviour.

String primitives mirror the source language: strip removes leading and
trailing whitespace, split with no separator tokenises on whitespace runs,
split on a newline keeps empty pieces.  The whitespace set and the regex
character classes are taken in their ASCII reading.
-/

namespace ServerMonitor

/-- Whitespace set used by the source language's strip and argument-free
split operations (ASCII fragment). -/
def pyIsSpace (c : Char) : Bool :=
  c = ' ' || c = '\t' || c = '\n' || c = '\r' || c = '\x0b' || c = '\x0c'

/-- Strip leading and trailing whitespace from a character list
(embedding of the strip method). -/
def pyStripL (cs : List Char) : List Char :=
  ((cs.dropWhile pyIsSpace).reverse.dropWhile pyIsSpace).reverse

/-- Strip on strings. -/
def pyStripStr (s : String) : String := String.mk (pyStripL s.toList)

/-- Split on every newline character, keeping empty pieces
(embedding of split applied to a newline separator). -/
def splitNl : List Char → List (List Char)
  | [] => [[]]
  | c :: cs =>
    if c = '\n' then [] :: splitNl cs
    else
      match splitNl cs with
      | [] => [[c]]
      | l :: ls => (c :: l) :: ls

/-- Worker for whitespace tokenisation; the first argument accumulates the
current token in reverse. -/
def pySplitGo : List Char → List Char → List String
  | cur, [] => if cur.isEmpty then [] else [String.mk cur.reverse]
  | cur, c :: cs =>
    if pyIsSpace c then
      if cur.isEmpty then pySplitGo [] cs
      else String.mk cur.reverse :: pySplitGo [] cs
    else pySplitGo (c :: cur) cs

/-- Split a line on whitespace runs, discarding empty tokens
(embedding of the argument-free split method). -/
def pySplit (cs : List Char) : List String := pySplitGo [] cs

/-! ## Data model -/

/-- One remote host to poll: host address, username, port. -/
structure ServerTarget where
  host : String
  username : String
  port : Nat
deriving DecidableEq

/-- One GPU row as parsed from the diagnostic table (source dict keys). -/
structure GpuRecord where
  id : String
  name : String
  memory_used : String
  memory_total : String
  utilization : String
deriving DecidableEq

/-- One filesystem row as parsed from the usage table (source dict keys). -/
structure StorageRecord where
  filesystem : String
  size : String
  used : String
  available : String
  use_percent : String
  mounted_on : String
deriving DecidableEq

/-- Result of polling one target: the success dictionary with both record
lists, or the error dictionary with the exception message. -/
inductive FetchResult where
  | success (gpus : List GpuRecord) (storage : List StorageRecord)
  | failure (message : String)
deriving DecidableEq

/-! ## Output parsers (parse_gpu_info, parse_storage_info) -/

/-- Body of the per-line step of parse_gpu_info: skip blank lines, split on
whitespace, accept rows with at least 13 fields taking positions
1, 2, 8, 10, 12. -/
def gpuLineStep (line : List Char) : Option GpuRecord :=
  if (pyStripL line).isEmpty then none
  else
    let parts := pySplit line
    if 13 ≤ parts.length then
      some { id := parts.getD 1 "", name := parts.getD 2 "",
             memory_used := parts.getD 8 "", memory_total := parts.getD 10 "",
             utilization := parts.getD 12 "" }
    else none

/-- Embedding of parse_gpu_info: strip the raw text, split into lines,
drop the first two lines, apply the per-line step. -/
def parse_gpu_info (s : String) : List GpuRecord :=
  ((splitNl (pyStripL s.toList)).drop 2).filterMap gpuLineStep

/-- Body of the per-line step of parse_storage_info: skip blank lines,
split on whitespace, accept rows with at least 6 fields taking positions
0 through 5. -/
def storageLineStep (line : List Char) : Option StorageRecord :=
  if (pyStripL line).isEmpty then none
  else
    let parts := pySplit line
    if 6 ≤ parts.length then
      some { filesystem := parts.getD 0 "", size := parts.getD 1 "",
             used := parts.getD 2 "", available := parts.getD 3 "",
             use_percent := parts.getD 4 "", mounted_on := parts.getD 5 "" }
    else none

/-- Embedding of parse_storage_info: strip the raw text, split into lines,
drop the first (header) line, apply the per-line step. -/
def parse_storage_info (s : String) : List StorageRecord :=
  ((splitNl (pyStripL s.toList)).drop 1).filterMap storageLineStep

/-! ## Spec-side formulations of the two row rules

These follow the spec's wording (accept a row exactly when it yields enough
whitespace fields, no separate blank-line case) and are compared with the
source-side parsers above. -/

/-- Spec wording for a GPU row: split on whitespace; a row is accepted only
if it yields at least 13 fields, taking fields at fixed positions
1, 2, 8, 10, 12. -/
def specGpuRow (line : List Char) : Option GpuRecord :=
  if 13 ≤ (pySplit line).length then
    some { id := (pySplit line).getD 1 "", name := (pySplit line).getD 2 "",
           memory_used := (pySplit line).getD 8 "",
           memory_total := (pySplit line).getD 10 "",
           utilization := (pySplit line).getD 12 "" }
  else none

/-- Spec wording for the GPU table: discard the first two lines, apply the
row rule to every remaining line. -/
def specGpuParse (s : String) : List GpuRecord :=
  ((splitNl (pyStripL s.toList)).drop 2).filterMap specGpuRow

/-- Spec wording for a storage row: split on whitespace; accept rows with at
least 6 fields, taking fields at positions 0 through 5. -/
def specStorageRow (line : List Char) : Option StorageRecord :=
  if 6 ≤ (pySplit line).length then
    some { filesystem := (pySplit line).getD 0 "", size := (pySplit line).getD 1 "",
           used := (pySplit line).getD 2 "", available := (pySplit line).getD 3 "",
           use_percent := (pySplit line).getD 4 "", mounted_on := (pySplit line).getD 5 "" }
  else none

/-- Spec wording for the storage table: discard the first line, apply the
row rule to every remaining line. -/
def specStorageParse (s : String) : List StorageRecord :=
  ((splitNl (pyStripL s.toList)).drop 1).filterMap specStorageRow

/-! ## Target discovery (read_zshrc_aliases)

The source scans the configuration text with the regular expression
ssh -P (\d+) (\w+)@([\d\.]+), collecting non-overlapping matches left to
right.  Because each capturing group is a character class disjoint from the
character that must follow it, the regex engine's greedy matching coincides
with maximal munch, which is what the scanner below implements.  The spec
refers to the ssh command token as the remote-shell command. -/

/-- Word characters of the regex class (ASCII reading). -/
def isWordChar (c : Char) : Bool := c.isAlphanum || c = '_'

/-- Characters of the host class: digits and dots. -/
def isHostChar (c : Char) : Bool := c.isDigit || c = '.'

/-- The literal part of the discovery pattern. -/
def sshLit : List Char := ['s', 's', 'h', ' ', '-', 'P', ' ']

/-- Match a literal character sequence at the head of the input, returning
the remainder. -/
def matchLit : List Char → List Char → Option (List Char)
  | [], cs => some cs
  | _ :: _, [] => none
  | l :: ls, c :: cs => if c = l then matchLit ls cs else none

/-- Match one specific character at the head of the input. -/
def expectChar (a : Char) : List Char → Option (List Char)
  | [] => none
  | c :: cs => if c = a then some cs else none

/-- Greedily take a nonempty run of class characters, returning the run and
the remainder. -/
def munch1 (p : Char → Bool) (cs : List Char) : Option (List Char × List Char) :=
  if (cs.takeWhile p).isEmpty then none
  else some (cs.takeWhile p, cs.dropWhile p)

/-- Value of a digit string, as the source's integer conversion computes it. -/
def digitsToNat (cs : List Char) : Nat :=
  cs.foldl (fun n c => n * 10 + (c.toNat - 48)) 0

/-- Try to match the discovery pattern at the start of the input, returning
the captured target and the remainder after the match. -/
def tryMatchAt (cs : List Char) : Option (ServerTarget × List Char) :=
  match matchLit sshLit cs with
  | none => none
  | some r1 =>
    match munch1 Char.isDigit r1 with
    | none => none
    | some (port, r2) =>
      match expectChar ' ' r2 with
      | none => none
      | some r3 =>
        match munch1 isWordChar r3 with
        | none => none
        | some (user, r4) =>
          match expectChar '@' r4 with
          | none => none
          | some r5 =>
            match munch1 isHostChar r5 with
            | none => none
            | some (host, r6) =>
              some ({ host := String.mk host, username := String.mk user,
                      port := digitsToNat port }, r6)

/-- Fuelled scanner for non-overlapping left-to-right matches; the fuel is
an upper bound on the input length, so it never runs out. -/
def scanGo : Nat → List Char → List ServerTarget
  | 0, _ => []
  | _ + 1, [] => []
  | fuel + 1, c :: cs =>
    match tryMatchAt (c :: cs) with
    | some (t, rest) => t :: scanGo fuel rest
    | none => scanGo fuel cs

/-- All targets matched in a configuration text, in match order. -/
def scanTargets (cs : List Char) : List ServerTarget := scanGo cs.length cs

/-- The console message printed when the configuration file is missing. -/
def zshrcNotFoundMsg : String := "Error: .zshrc file not found"

/-- Embedding of read_zshrc_aliases.  The file-system interaction is the
argument: none models the missing-file case (the source catches the
file-not-found error, prints a message and returns the empty list), some
content models the readable file.  The second component collects console
messages. -/
def read_zshrc_aliases (file : Option String) : List ServerTarget × List String :=
  match file with
  | none => ([], [zshrcNotFoundMsg])
  | some content => (scanTargets content.toList, [])

/-- The console message printed by main when the target list is empty. -/
def noServersMsg : String := "No servers found in .zshrc file"

/-- Embedding of main's discovery stage: read the targets, abort (none) when
the list is empty, otherwise continue with the list.  Console messages are
accumulated in the second component. -/
def mainDiscovery (file : Option String) : Option (List ServerTarget) × List String :=
  let r := read_zshrc_aliases file
  if r.1.isEmpty then (none, r.2 ++ [noServersMsg]) else (some r.1, r.2)

/-! ## Per-target fetch (get_server_info) and the main loop -/

/-- The oracle for one target's remote interaction: whether connecting
raises, and what each of the two command executions yields (ok output, or
error with the exception message). -/
structure Env where
  connect : Except String Unit
  gpuCmd : Except String String
  dfCmd : Except String String

/-- Observable outcome of get_server_info on one target: the returned
dictionary, whether a session was opened (connect succeeded), and whether
the session's close method ran before the return. -/
structure FetchTrace where
  result : FetchResult
  opened : Bool
  closed : Bool
deriving DecidableEq

/-- The sentinel substituted when the optional GPU command raises. -/
def sentinelGpuOutput : String := "No GPU information available"

/-- Embedding of get_server_info.  The outer try covers connecting and the
mandatory command; the inner try covers only the optional GPU command,
whose failure substitutes the sentinel.  The session is closed only on the
path that reaches the close call, exactly as in the source. -/
def get_server_info (env : Env) : FetchTrace :=
  match env.connect with
  | Except.error e => { result := FetchResult.failure e, opened := false, closed := false }
  | Except.ok _ =>
    let gpu_info : String :=
      match env.gpuCmd with
      | Except.ok s => s
      | Except.error _ => sentinelGpuOutput
    match env.dfCmd with
    | Except.error e => { result := FetchResult.failure e, opened := true, closed := false }
    | Except.ok storage_info =>
      { result := FetchResult.success (parse_gpu_info gpu_info)
                    (parse_storage_info storage_info),
        opened := true, closed := true }

/-- One poll cycle of main's loop body: one get_server_info call per target,
in target-list order. -/
def pollCycle (servers : List ServerTarget) (world : ServerTarget → Env) : List FetchTrace :=
  servers.map fun s => get_server_info (world s)

/-- Loop control returned by one pass of the body. -/
inductive LoopCmd where
  | cont
  | brk
deriving DecidableEq

/-- One pass of main's loop body: perform the poll cycle, then hit the
unconditional break statement. -/
def pollOnce (servers : List ServerTarget) (world : ServerTarget → Env) :
    List FetchTrace × LoopCmd :=
  (pollCycle servers world, LoopCmd.brk)

/-- Fuelled unfolding of main's unconditional loop: run the body, then
continue only if the body did not break. -/
def runLoop : Nat → List ServerTarget → (ServerTarget → Env) → List (List FetchTrace)
  | 0, _, _ => []
  | fuel + 1, servers, world =>
    let r := pollOnce servers world
    r.1 :: (match r.2 with
            | LoopCmd.brk => []
            | LoopCmd.cont => runLoop fuel servers world)

/-- Embedding of main: discovery, abort on an empty target list, otherwise
run the polling loop.  Returns the list of poll cycles performed, or none
when the run aborted at discovery. -/
def mainRun (file : Option String) (world : ServerTarget → Env) (fuel : Nat) :
    Option (List (List FetchTrace)) :=
  match (mainDiscovery file).1 with
  | none => none
  | some servers => some (runLoop fuel servers world)

/-! ## Helper lemmas: dropWhile, strip, tokenisation -/

theorem dropWhile_len_le {α : Type} (p : α → Bool) (l : List α) :
    (l.dropWhile p).length ≤ l.length := by
  induction l with
  | nil => simp
  | cons a l ih =>
    by_cases h : p a
    · simp only [List.dropWhile_cons, h, if_true, List.length_cons]
      omega
    · simp [List.dropWhile_cons, h]

theorem dropWhile_head_not {α : Type} (p : α → Bool) :
    ∀ (l : List α) (x : α) (xs : List α), l.dropWhile p = x :: xs → p x = false := by
  intro l
  induction l with
  | nil => intro x xs h; simp at h
  | cons a l ih =>
    intro x xs h
    by_cases hp : p a
    · exact ih x xs (by simpa [List.dropWhile_cons, hp] using h)
    · rw [List.dropWhile_cons, if_neg (by simpa using hp)] at h
      cases h
      simpa using hp

theorem dropWhile_idem {α : Type} (p : α → Bool) (l : List α) :
    (l.dropWhile p).dropWhile p = l.dropWhile p := by
  cases h : l.dropWhile p with
  | nil => simp
  | cons x xs =>
    have hx := dropWhile_head_not p l x xs h
    simp [List.dropWhile_cons, hx]

theorem dropWhile_pyStripL (l : List Char) :
    (pyStripL l).dropWhile pyIsSpace = pyStripL l := by
  have hsplit : (l.dropWhile pyIsSpace).reverse.takeWhile pyIsSpace ++
      (l.dropWhile pyIsSpace).reverse.dropWhile pyIsSpace
      = (l.dropWhile pyIsSpace).reverse :=
    List.takeWhile_append_dropWhile pyIsSpace (l.dropWhile pyIsSpace).reverse
  have hu : l.dropWhile pyIsSpace
      = pyStripL l ++ ((l.dropWhile pyIsSpace).reverse.takeWhile pyIsSpace).reverse := by
    unfold pyStripL
    conv_lhs => rw [← List.reverse_reverse (l.dropWhile pyIsSpace), ← hsplit]
    rw [List.reverse_append]
  cases hw : pyStripL l with
  | nil => simp
  | cons x xs =>
    have hx : pyIsSpace x = false := by
      rw [hw, List.cons_append] at hu
      exact dropWhile_head_not pyIsSpace l x
        (xs ++ ((l.dropWhile pyIsSpace).reverse.takeWhile pyIsSpace).reverse) hu
    simp [List.dropWhile_cons, hx]

theorem pyStripL_idem (cs : List Char) : pyStripL (pyStripL cs) = pyStripL cs := by
  have h1 : (pyStripL cs).dropWhile pyIsSpace = pyStripL cs := dropWhile_pyStripL cs
  show (((pyStripL cs).dropWhile pyIsSpace).reverse.dropWhile pyIsSpace).reverse = pyStripL cs
  rw [h1]
  have h2 : (pyStripL cs).reverse = (cs.dropWhile pyIsSpace).reverse.dropWhile pyIsSpace := by
    unfold pyStripL
    rw [List.reverse_reverse]
  rw [h2, dropWhile_idem, ← h2, List.reverse_reverse]

theorem pyStripL_cons_space (c : Char) (hc : pyIsSpace c = true) (cs : List Char) :
    pyStripL (c :: cs) = pyStripL cs := by
  unfold pyStripL
  rw [List.dropWhile_cons, if_pos hc]

theorem toList_mk (l : List Char) : (String.mk l).toList = l := rfl

theorem pyStripL_eq_nil_iff (cs : List Char) :
    pyStripL cs = [] ↔ ∀ x ∈ cs, pyIsSpace x = true := by
  constructor
  · intro h
    have hdw : cs.dropWhile pyIsSpace = [] := by
      cases hu : cs.dropWhile pyIsSpace with
      | nil => rfl
      | cons x xs =>
        exfalso
        have hx := dropWhile_head_not pyIsSpace cs x xs hu
        have hnil : (x :: xs).reverse.dropWhile pyIsSpace = [] := by
          unfold pyStripL at h
          rw [hu] at h
          exact List.reverse_eq_nil_iff.mp h
        rw [List.dropWhile_eq_nil_iff] at hnil
        have := hnil x (by simp)
        rw [hx] at this
        exact Bool.noConfusion this
    exact List.dropWhile_eq_nil_iff.mp hdw
  · intro h
    unfold pyStripL
    rw [List.dropWhile_eq_nil_iff.mpr h]
    rfl

theorem pySplitGo_all_space :
    ∀ cs : List Char, (∀ x ∈ cs, pyIsSpace x = true) → pySplitGo [] cs = [] := by
  intro cs
  induction cs with
  | nil => intro _; rfl
  | cons c cs ih =>
    intro h
    have hc : pyIsSpace c = true := h c (by simp)
    simp only [pySplitGo, hc, if_true, List.isEmpty_nil]
    exact ih fun x hx => h x (by simp [hx])

theorem pySplit_of_blank (line : List Char) (h : (pyStripL line).isEmpty = true) :
    pySplit line = [] := by
  rw [List.isEmpty_iff] at h
  exact pySplitGo_all_space line ((pyStripL_eq_nil_iff line).mp h)

theorem gpuLineStep_eq_spec (line : List Char) : gpuLineStep line = specGpuRow line := by
  unfold gpuLineStep specGpuRow
  cases h : (pyStripL line).isEmpty with
  | true =>
    rw [if_pos (by simp [h])]
    rw [pySplit_of_blank line h]
    rfl
  | false =>
    rw [if_neg (by simp [h])]

theorem storageLineStep_eq_spec (line : List Char) :
    storageLineStep line = specStorageRow line := by
  unfold storageLineStep specStorageRow
  cases h : (pyStripL line).isEmpty with
  | true =>
    rw [if_pos (by simp [h])]
    rw [pySplit_of_blank line h]
    rfl
  | false =>
    rw [if_neg (by simp [h])]

theorem parse_gpu_info_eq_spec (s : String) : parse_gpu_info s = specGpuParse s := by
  unfold parse_gpu_info specGpuParse
  rw [funext gpuLineStep_eq_spec]

theorem parse_storage_info_eq_spec (s : String) :
    parse_storage_info s = specStorageParse s := by
  unfold parse_storage_info specStorageParse
  rw [funext storageLineStep_eq_spec]

/-! ## Helper lemmas: the discovery scanner -/

theorem matchLit_append_nl (lits : List Char) (h : '\n' ∉ lits) :
    ∀ (xs ys : List Char),
      matchLit lits (xs ++ '\n' :: ys) = (matchLit lits xs).map (· ++ '\n' :: ys) := by
  induction lits with
  | nil => intro xs ys; rfl
  | cons l ls ih =>
    simp only [List.mem_cons, not_or] at h
    obtain ⟨h1, h2⟩ := h
    intro xs ys
    cases xs with
    | nil =>
      simp only [List.nil_append, matchLit]
      rw [if_neg h1]
      rfl
    | cons x xs =>
      simp only [List.cons_append, matchLit]
      by_cases hx : x = l
      · rw [if_pos hx, if_pos hx]
        exact ih h2 xs ys
      · rw [if_neg hx, if_neg hx]
        rfl

theorem expectChar_append_nl (a : Char) (ha : a ≠ '\n') (xs ys : List Char) :
    expectChar a (xs ++ '\n' :: ys) = (expectChar a xs).map (· ++ '\n' :: ys) := by
  cases xs with
  | nil =>
    simp only [List.nil_append, expectChar]
    rw [if_neg fun he => ha he.symm]
    rfl
  | cons x xs =>
    simp only [List.cons_append, expectChar]
    by_cases hx : x = a
    · rw [if_pos hx, if_pos hx]; rfl
    · rw [if_neg hx, if_neg hx]; rfl

theorem takeWhile_append_nl (p : Char → Bool) (hp : p '\n' = false) :
    ∀ (xs ys : List Char), (xs ++ '\n' :: ys).takeWhile p = xs.takeWhile p := by
  intro xs ys
  induction xs with
  | nil => simp [List.takeWhile_cons, hp]
  | cons x xs ih =>
    by_cases hx : p x
    · simp [List.takeWhile_cons, hx, ih]
    · simp [List.takeWhile_cons, hx]

theorem dropWhile_append_nl (p : Char → Bool) (hp : p '\n' = false) :
    ∀ (xs ys : List Char),
      (xs ++ '\n' :: ys).dropWhile p = xs.dropWhile p ++ '\n' :: ys := by
  intro xs ys
  induction xs with
  | nil => simp [List.dropWhile_cons, hp]
  | cons x xs ih =>
    by_cases hx : p x
    · simp [List.dropWhile_cons, hx, ih]
    · simp [List.dropWhile_cons, hx]

theorem munch1_append_nl (p : Char → Bool) (hp : p '\n' = false) (xs ys : List Char) :
    munch1 p (xs ++ '\n' :: ys)
      = (munch1 p xs).map (fun pr => (pr.1, pr.2 ++ '\n' :: ys)) := by
  unfold munch1
  rw [takeWhile_append_nl p hp, dropWhile_append_nl p hp]
  by_cases h : (xs.takeWhile p).isEmpty
  · rw [if_pos h, if_pos h]; rfl
  · rw [if_neg h, if_neg h]; rfl

theorem tryMatchAt_append_nl (xs ys : List Char) :
    tryMatchAt (xs ++ '\n' :: ys)
      = (tryMatchAt xs).map (fun pr => (pr.1, pr.2 ++ '\n' :: ys)) := by
  unfold tryMatchAt
  rw [matchLit_append_nl sshLit (by decide) xs ys]
  cases h1 : matchLit sshLit xs with
  | none => rfl
  | some r1 =>
    simp only [Option.map_some']
    rw [munch1_append_nl Char.isDigit (by decide) r1 ys]
    cases h2 : munch1 Char.isDigit r1 with
    | none => rfl
    | some pr2 =>
      obtain ⟨port, r2⟩ := pr2
      simp only [Option.map_some']
      rw [expectChar_append_nl ' ' (by decide) r2 ys]
      cases h3 : expectChar ' ' r2 with
      | none => rfl
      | some r3 =>
        simp only [Option.map_some']
        rw [munch1_append_nl isWordChar (by decide) r3 ys]
        cases h4 : munch1 isWordChar r3 with
        | none => rfl
        | some pr4 =>
          obtain ⟨user, r4⟩ := pr4
          simp only [Option.map_some']
          rw [expectChar_append_nl '@' (by decide) r4 ys]
          cases h5 : expectChar '@' r4 with
          | none => rfl
          | some r5 =>
            simp only [Option.map_some']
            rw [munch1_append_nl isHostChar (by decide) r5 ys]
            cases h6 : munch1 isHostChar r5 with
            | none => rfl
            | some pr6 => rfl

theorem matchLit_length :
    ∀ (lits cs r : List Char), matchLit lits cs = some r → r.length + lits.length = cs.length := by
  intro lits
  induction lits with
  | nil =>
    intro cs r h
    injection h with h
    subst h
    simp
  | cons l ls ih =>
    intro cs r h
    cases cs with
    | nil => exact absurd h (by simp [matchLit])
    | cons c cs =>
      simp only [matchLit] at h
      by_cases hc : c = l
      · rw [if_pos hc] at h
        have := ih cs r h
        simp only [List.length_cons]
        omega
      · rw [if_neg hc] at h
        cases h

theorem munch1_length (p : Char → Bool) (cs : List Char) :
    ∀ pr, munch1 p cs = some pr → pr.2.length ≤ cs.length := by
  intro pr h
  unfold munch1 at h
  split at h
  · cases h
  · injection h with h
    subst h
    exact dropWhile_len_le p cs

theorem expectChar_length (a : Char) (cs r : List Char) (h : expectChar a cs = some r) :
    r.length < cs.length := by
  cases cs with
  | nil => simp [expectChar] at h
  | cons c cs =>
    by_cases hc : c = a
    · have he : expectChar a (c :: cs) = some cs := by
        simp only [expectChar]
        rw [if_pos hc]
      rw [he] at h
      injection h with h
      subst h
      simp
    · have he : expectChar a (c :: cs) = none := by
        simp only [expectChar]
        rw [if_neg hc]
      rw [he] at h
      cases h

theorem tryMatchAt_length (cs : List Char) :
    ∀ pr, tryMatchAt cs = some pr → pr.2.length < cs.length := by
  intro pr h
  unfold tryMatchAt at h
  split at h
  · cases h
  · rename_i r1 h1
    split at h
    · cases h
    · rename_i pr2 port r2 h2
      split at h
      · cases h
      · rename_i r3 h3
        split at h
        · cases h
        · rename_i pr4 user r4 h4
          split at h
          · cases h
          · rename_i r5 h5
            split at h
            · cases h
            · rename_i pr6 host r6 h6
              injection h with h
              subst h
              have l1 := matchLit_length sshLit cs r1 h1
              have l2 := munch1_length Char.isDigit r1 (port, r2) h2
              have l3 := expectChar_length ' ' r2 r3 h3
              have l4 := munch1_length isWordChar r3 (user, r4) h4
              have l5 := expectChar_length '@' r4 r5 h5
              have l6 := munch1_length isHostChar r5 (host, r6) h6
              simp only [sshLit, List.length_cons, List.length_nil] at l1
              simp only at l2 l4 l6
              simp only
              omega

theorem scanGo_nil (f : Nat) : scanGo f [] = [] := by
  cases f <;> rfl

theorem scanGo_fuel :
    ∀ (n f g : Nat) (cs : List Char), cs.length ≤ n → cs.length ≤ f → cs.length ≤ g →
      scanGo f cs = scanGo g cs := by
  intro n
  induction n with
  | zero =>
    intro f g cs hn _ _
    have hnil : cs = [] := by
      cases cs with
      | nil => rfl
      | cons c cs => simp at hn
    subst hnil
    rw [scanGo_nil, scanGo_nil]
  | succ n ih =>
    intro f g cs hn hf hg
    cases cs with
    | nil => rw [scanGo_nil, scanGo_nil]
    | cons c cs =>
      simp only [List.length_cons] at hn hf hg
      cases f with
      | zero => omega
      | succ f =>
        cases g with
        | zero => omega
        | succ g =>
          simp only [scanGo]
          cases htm : tryMatchAt (c :: cs) with
          | none =>
            exact ih f g cs (by omega) (by omega) (by omega)
          | some pr =>
            obtain ⟨t, rest⟩ := pr
            have hr := tryMatchAt_length (c :: cs) (t, rest) htm
            simp only [List.length_cons] at hr
            show t :: scanGo f rest = t :: scanGo g rest
            rw [ih f g rest (by omega) (by omega) (by omega)]

theorem scanGo_ge (f : Nat) (cs : List Char) (h : cs.length ≤ f) :
    scanGo f cs = scanTargets cs :=
  scanGo_fuel cs.length f cs.length cs (le_refl _) h (le_refl _)

theorem scanTargets_cons_some (c : Char) (cs rest : List Char) (t : ServerTarget)
    (h : tryMatchAt (c :: cs) = some (t, rest)) :
    scanTargets (c :: cs) = t :: scanTargets rest := by
  show scanGo (c :: cs).length (c :: cs) = t :: scanTargets rest
  simp only [List.length_cons, scanGo, h]
  have hr := tryMatchAt_length (c :: cs) (t, rest) h
  simp only [List.length_cons] at hr
  rw [scanGo_ge cs.length rest (by omega)]

theorem scanTargets_cons_none (c : Char) (cs : List Char)
    (h : tryMatchAt (c :: cs) = none) :
    scanTargets (c :: cs) = scanTargets cs := by
  show scanGo (c :: cs).length (c :: cs) = scanTargets cs
  simp only [List.length_cons, scanGo, h]
  rfl

theorem tryMatchAt_nl (l : List Char) : tryMatchAt ('\n' :: l) = none := by
  have h : matchLit sshLit ('\n' :: l) = none := by
    simp only [sshLit, matchLit]
    rw [if_neg (by decide)]
  unfold tryMatchAt
  rw [h]

theorem scanTargets_nl_cons (ys : List Char) :
    scanTargets ('\n' :: ys) = scanTargets ys :=
  scanTargets_cons_none '\n' ys (tryMatchAt_nl ys)

theorem scanTargets_append_nl :
    ∀ (n : Nat) (xs : List Char), xs.length ≤ n → ∀ ys : List Char,
      scanTargets (xs ++ '\n' :: ys) = scanTargets xs ++ scanTargets ys := by
  intro n
  induction n with
  | zero =>
    intro xs h ys
    have hnil : xs = [] := by
      cases xs with
      | nil => rfl
      | cons c cs => simp at h
    subst hnil
    rw [List.nil_append, scanTargets_nl_cons]
    rfl
  | succ n ih =>
    intro xs h ys
    cases xs with
    | nil =>
      rw [List.nil_append, scanTargets_nl_cons]
      rfl
    | cons c cs =>
      simp only [List.length_cons] at h
      rw [List.cons_append]
      cases htm : tryMatchAt (c :: cs) with
      | none =>
        have hext := tryMatchAt_append_nl (c :: cs) ys
        rw [htm, Option.map_none', List.cons_append] at hext
        rw [scanTargets_cons_none c (cs ++ '\n' :: ys) hext]
        rw [ih cs (by omega) ys]
        rw [scanTargets_cons_none c cs htm]
      | some pr =>
        obtain ⟨t, rest⟩ := pr
        have hext := tryMatchAt_append_nl (c :: cs) ys
        rw [htm, Option.map_some', List.cons_append] at hext
        have hr := tryMatchAt_length (c :: cs) (t, rest) htm
        simp only [List.length_cons] at hr
        rw [scanTargets_cons_some c (cs ++ '\n' :: ys) (rest ++ '\n' :: ys) t hext]
        rw [ih rest (by omega) ys]
        rw [scanTargets_cons_some c cs rest t htm]
        rw [List.cons_append]

theorem scanTargets_split (xs ys : List Char) :
    scanTargets (xs ++ '\n' :: ys) = scanTargets xs ++ scanTargets ys :=
  scanTargets_append_nl xs.length xs (le_refl _) ys

theorem toList_append (a b : String) : (a ++ b).toList = a.toList ++ b.toList :=
  String.data_append a b

/-! ## Claims -/

/-- C1: For every target list of length N, one poll cycle produces exactly N
results, one get_server_info call per target, in target-list order,
whatever outcomes the per-target environments produce; the result field of
the i-th trace is the i-th target's FetchResult. -/
theorem poll_cycle_one_result_per_target :
    ∀ (servers : List ServerTarget) (world : ServerTarget → Env),
      (pollCycle servers world).length = servers.length
    ∧ ∀ i : Nat, (pollCycle servers world)[i]?
        = (servers[i]?).map fun t => get_server_info (world t) := by
  intro servers world
  constructor
  · unfold pollCycle
    exact List.length_map servers _
  · intro i
    unfold pollCycle
    exact List.getElem?_map _ servers i

/-- C2: The source closes the session only on the success path.  Evaluating
get_server_info on an environment where connecting succeeds but the
mandatory command raises shows that the function returns the failure result
with the session opened and never closed, contradicting the claim that the
session is closed on every exit path. -/
theorem session_left_open_on_mandatory_failure :
    get_server_info { connect := Except.ok (), gpuCmd := Except.ok "",
                      dfCmd := Except.error "channel closed" }
      = { result := FetchResult.failure "channel closed", opened := true, closed := false } :=
  rfl

/-- C3: The GPU parser discards the first two lines of the stripped input
and for each remaining line produces a record exactly when the line splits
into at least 13 whitespace fields, taking positions 1, 2, 8, 10, 12; blank
lines and short lines produce no record and no error, as the concrete
sample with a blank line and a short row shows. -/
theorem gpu_parser_characterisation :
    (∀ s : String, parse_gpu_info s = specGpuParse s)
  ∧ (∀ line : List Char, specGpuRow line = none ↔ (pySplit line).length < 13)
  ∧ parse_gpu_info
        "header one\nheader two\n\na 0 GeForce d e f g h 1MiB j 8MiB l 37%\nshort row only"
      = [{ id := "0", name := "GeForce", memory_used := "1MiB",
           memory_total := "8MiB", utilization := "37%" }] := by
  refine ⟨parse_gpu_info_eq_spec, ?_, by decide⟩
  intro line
  unfold specGpuRow
  by_cases h : 13 ≤ (pySplit line).length
  · rw [if_pos h]
    simp
    omega
  · rw [if_neg h]
    simp
    omega

/-- C4: The storage parser discards the first line of the stripped input and
for each remaining line produces a record exactly when the line splits into
at least 6 whitespace fields, taking positions 0 through 5; on a header
line plus the sample row the record carries use_percent 91%. -/
theorem storage_parser_characterisation :
    (∀ s : String, parse_storage_info s = specStorageParse s)
  ∧ (∀ line : List Char, specStorageRow line = none ↔ (pySplit line).length < 6)
  ∧ parse_storage_info "Filesystem Size Used Avail Use% Mounted on\n/dev/sda1 100G 91G 9G 91% /"
      = [{ filesystem := "/dev/sda1", size := "100G", used := "91G", available := "9G",
           use_percent := "91%", mounted_on := "/" }] := by
  refine ⟨parse_storage_info_eq_spec, ?_, by decide⟩
  intro line
  unfold specStorageRow
  by_cases h : 6 ≤ (pySplit line).length
  · rw [if_pos h]
    simp
    omega
  · rw [if_neg h]
    simp
    omega

/-- C5: When connecting and the mandatory command succeed but the optional
GPU command raises, the sentinel output is substituted, it parses to zero
GPU records, and the target still yields a Success result whose storage
records are the parse of the mandatory command's output (with the session
closed). -/
theorem optional_gpu_unavailable_success (env : Env) (m s : String)
    (hc : env.connect = Except.ok ()) (hg : env.gpuCmd = Except.error m)
    (hd : env.dfCmd = Except.ok s) :
    get_server_info env
      = { result := FetchResult.success [] (parse_storage_info s),
          opened := true, closed := true }
    ∧ parse_gpu_info sentinelGpuOutput = [] := by
  have hsent : parse_gpu_info sentinelGpuOutput = [] := by decide
  refine ⟨?_, hsent⟩
  unfold get_server_info
  rw [hc, hg, hd]
  show FetchTrace.mk
      (FetchResult.success (parse_gpu_info sentinelGpuOutput) (parse_storage_info s)) true true
    = _
  rw [hsent]

/-- C5 witness: the theorem applied to a concrete environment whose optional
command raises. -/
theorem optional_gpu_unavailable_success_witness :
    get_server_info { connect := Except.ok (), gpuCmd := Except.error "nvidia-smi not found",
                      dfCmd := Except.ok "Filesystem\n/dev/sda1 100G 91G 9G 91% /" }
      = { result := FetchResult.success []
            (parse_storage_info "Filesystem\n/dev/sda1 100G 91G 9G 91% /"),
          opened := true, closed := true }
    ∧ parse_gpu_info sentinelGpuOutput = [] :=
  optional_gpu_unavailable_success _ "nvidia-smi not found"
    "Filesystem\n/dev/sda1 100G 91G 9G 91% /" rfl rfl rfl

/-- C6: A connection failure (or a mandatory-command failure) yields a
Failure result carrying just that message and no records, and the poll
cycle computes each target's result independently, so remaining targets
still produce their own results. -/
theorem per_target_failure_isolation :
    (∀ (env : Env) (m : String), env.connect = Except.error m →
        get_server_info env
          = { result := FetchResult.failure m, opened := false, closed := false })
  ∧ (∀ (env : Env) (m : String), env.connect = Except.ok () → env.dfCmd = Except.error m →
        (get_server_info env).result = FetchResult.failure m)
  ∧ (∀ (servers : List ServerTarget) (world : ServerTarget → Env) (i : Nat),
        (pollCycle servers world)[i]? = (servers[i]?).map fun t => get_server_info (world t)) := by
  refine ⟨?_, ?_, ?_⟩
  · intro env m hc
    unfold get_server_info
    rw [hc]
  · intro env m hc hd
    unfold get_server_info
    rw [hc, hd]
  · intro servers world i
    unfold pollCycle
    exact List.getElem?_map _ servers i

/-- C6 witness: the theorem applied to concrete failing environments. -/
theorem per_target_failure_isolation_witness :
    get_server_info { connect := Except.error "connection refused", gpuCmd := Except.ok "",
                      dfCmd := Except.ok "" }
      = { result := FetchResult.failure "connection refused", opened := false, closed := false }
    ∧ (get_server_info { connect := Except.ok (), gpuCmd := Except.ok "",
                         dfCmd := Except.error "df failed" }).result
        = FetchResult.failure "df failed" :=
  ⟨per_target_failure_isolation.1 _ "connection refused" rfl,
   per_target_failure_isolation.2.1 _ "df failed" rfl rfl⟩

/-- C7: Matches never cross line boundaries, so the scan of a text is the
concatenation of the scans of its lines (one target per match, matchless
lines contributing nothing), and on the concrete two-line text with one
matching line discovery yields exactly the one expected target.  The ssh
token of the source pattern is what the spec calls the remote-shell
command. -/
theorem target_discovery_per_line :
    (∀ xs ys : List Char, scanTargets (xs ++ '\n' :: ys) = scanTargets xs ++ scanTargets ys)
  ∧ scanTargets "this line is unrelated".toList = []
  ∧ scanTargets "ssh -P 22 alice@10.0.0.5".toList
      = [{ host := "10.0.0.5", username := "alice", port := 22 }]
  ∧ read_zshrc_aliases (some "this line is unrelated\nssh -P 22 alice@10.0.0.5")
      = ([{ host := "10.0.0.5", username := "alice", port := 22 }], []) :=
  ⟨scanTargets_split, by decide, by decide, by decide⟩

/-- C8 counterexample: a missing configuration file and a present file with
zero matches produce the same value from discovery (the empty target list),
and main's discovery stage reaches the same aborting branch in both cases,
so the two conditions are not distinguishable by the caller. -/
theorem discovery_missing_vs_empty_same_result :
    read_zshrc_aliases none = ([], [zshrcNotFoundMsg])
  ∧ read_zshrc_aliases (some "alias ll kind of line") = ([], [])
  ∧ (read_zshrc_aliases none).1 = (read_zshrc_aliases (some "alias ll kind of line")).1
  ∧ (mainDiscovery none).1 = (mainDiscovery (some "alias ll kind of line")).1 :=
  ⟨rfl, by decide, by decide, by decide⟩

/-- C8 amended: the two conditions differ only in the console diagnostics
emitted during discovery (the missing-file case prints the not-found error
before main's no-servers message); discovery returns the target list
scanned from the content when the file exists and the empty list when it is
missing, so the caller's branch sees the same empty list in both aborting
cases. -/
theorem discovery_missing_vs_empty_messages :
    (read_zshrc_aliases none).2 = [zshrcNotFoundMsg]
  ∧ (∀ content : String, (read_zshrc_aliases (some content)).2 = [])
  ∧ (∀ content : String, (read_zshrc_aliases (some content)).1 = scanTargets content.toList)
  ∧ (mainDiscovery none).2 = [zshrcNotFoundMsg, noServersMsg] :=
  ⟨rfl, fun _ => rfl, fun _ => rfl, rfl⟩

/-- C9: The polling loop's body ends in an unconditional break, so for any
positive fuel bound main performs exactly one poll cycle over the
discovered target list and terminates. -/
theorem main_loop_single_pass (file : Option String) (servers : List ServerTarget)
    (world : ServerTarget → Env) (fuel : Nat)
    (hs : (mainDiscovery file).1 = some servers) (hf : 1 ≤ fuel) :
    mainRun file world fuel = some [pollCycle servers world] := by
  unfold mainRun
  rw [hs]
  cases fuel with
  | zero => omega
  | succ f => rfl

/-- C9 witness: the theorem applied to a concrete one-target configuration. -/
theorem main_loop_single_pass_witness :
    mainRun (some "ssh -P 22 alice@10.0.0.5")
        (fun _ => { connect := Except.ok (), gpuCmd := Except.ok "", dfCmd := Except.ok "" }) 1
      = some [pollCycle [{ host := "10.0.0.5", username := "alice", port := 22 }]
          (fun _ => { connect := Except.ok (), gpuCmd := Except.ok "", dfCmd := Except.ok "" })] :=
  main_loop_single_pass _ _ _ 1 (by decide) (Nat.le_refl 1)

/-- C10: Both parsers strip the raw input before splitting it into lines,
so they are insensitive to leading and trailing whitespace, and leading
blank lines do not count toward the discarded header lines. -/
theorem parsers_whitespace_insensitive :
    ∀ s : String,
      parse_gpu_info (pyStripStr s) = parse_gpu_info s
    ∧ parse_storage_info (pyStripStr s) = parse_storage_info s
    ∧ parse_gpu_info ("\n\n" ++ s) = parse_gpu_info s
    ∧ parse_storage_info ("\n" ++ s) = parse_storage_info s := by
  intro s
  have h2 : ("\n\n" : String).toList = ['\n', '\n'] := rfl
  have h1 : ("\n" : String).toList = ['\n'] := rfl
  refine ⟨?_, ?_, ?_, ?_⟩
  · unfold parse_gpu_info pyStripStr
    rw [toList_mk, pyStripL_idem]
  · unfold parse_storage_info pyStripStr
    rw [toList_mk, pyStripL_idem]
  · unfold parse_gpu_info
    rw [toList_append, h2, List.cons_append, List.cons_append, List.nil_append,
      pyStripL_cons_space '\n' (by decide), pyStripL_cons_space '\n' (by decide)]
  · unfold parse_storage_info
    rw [toList_append, h1, List.cons_append, List.nil_append,
      pyStripL_cons_space '\n' (by decide)]

end ServerMonitor
